import Mathlib

/-!
Verification of the deterministic chunking and indexing pipeline of the
`root-rag` repository.  The Python sources under `src/root_rag/` are embedded
shallowly: pure functions become Lean functions on `Nat`/`Int`/`String`/`List`,
fallible constructors become `Except`, and the I/O environment (sqlite, file
system) is passed in explicitly as data.
-/

set_option maxRecDepth 1000000
set_option maxHeartbeats 2000000

deriving instance DecidableEq for Except

namespace RootRag

/-! ## 32-bit helpers for SHA-256 (`hashlib.sha256`), modelled on `Nat` -/

/-- `2^32`, the modulus for 32-bit words. -/
def w32 : Nat := 4294967296

/-- Addition modulo `2^32`. -/
def add32 (a b : Nat) : Nat := (a + b) % w32

/-- Right rotation of a 32-bit word by `n` bits. -/
def rotr32 (n x : Nat) : Nat := ((x % w32) >>> n) ||| ((x <<< (32 - n)) % w32)

/-- Logical right shift. -/
def shr32 (n x : Nat) : Nat := x >>> n

/-- Three-way xor. -/
def xor3 (a b c : Nat) : Nat := (a ^^^ b) ^^^ c

/-- SHA-256 message-schedule sigma-0. -/
def ssig0 (x : Nat) : Nat := xor3 (rotr32 7 x) (rotr32 18 x) (shr32 3 x)

/-- SHA-256 message-schedule sigma-1. -/
def ssig1 (x : Nat) : Nat := xor3 (rotr32 17 x) (rotr32 19 x) (shr32 10 x)

/-- SHA-256 round big-sigma-0. -/
def bsig0 (x : Nat) : Nat := xor3 (rotr32 2 x) (rotr32 13 x) (rotr32 22 x)

/-- SHA-256 round big-sigma-1. -/
def bsig1 (x : Nat) : Nat := xor3 (rotr32 6 x) (rotr32 11 x) (rotr32 25 x)

/-- SHA-256 choice function. -/
def chf (x y z : Nat) : Nat := (x &&& y) ^^^ ((x ^^^ 4294967295) &&& z)

/-- SHA-256 majority function. -/
def majf (x y z : Nat) : Nat := xor3 (x &&& y) (x &&& z) (y &&& z)

/-- The 64 SHA-256 round constants. -/
def sha256K : List Nat :=
  [1116352408, 1899447441, 3049323471, 3921009573, 961987163, 1508970993,
   2453635748, 2870763221, 3624381080, 310598401, 607225278, 1426881987,
   1925078388, 2162078206, 2614888103, 3248222580, 3835390401, 4022224774,
   264347078, 604807628, 770255983, 1249150122, 1555081692, 1996064986,
   2554220882, 2821834349, 2952996808, 3210313671, 3336571891, 3584528711,
   113926993, 338241895, 666307205, 773529912, 1294757372, 1396182291,
   1695183700, 1986661051, 2177026350, 2456956037, 2730485921, 2820302411,
   3259730800, 3345764771, 3516065817, 3600352804, 4094571909, 275423344,
   430227734, 506948616, 659060556, 883997877, 958139571, 1322822218,
   1537002063, 1747873779, 1955562222, 2024104815, 2227730452, 2361852424,
   2428436474, 2756734187, 3204031479, 3329325298]

/-- Eight 32-bit words: both the running hash value and the round state. -/
structure Hash8 where
  h0 : Nat
  h1 : Nat
  h2 : Nat
  h3 : Nat
  h4 : Nat
  h5 : Nat
  h6 : Nat
  h7 : Nat
deriving DecidableEq, Repr

/-- The SHA-256 initial hash value. -/
def sha256Init : Hash8 :=
  ⟨1779033703, 3144134277, 1013904242, 2773480762,
   1359893119, 2600822924, 528734635, 1541459225⟩

/-- One SHA-256 round; `kw` is the pair of round constant and schedule word. -/
def sha256Round (s : Hash8) (kw : Nat × Nat) : Hash8 :=
  let t1 := add32 (add32 (add32 s.h7 (bsig1 s.h4)) (add32 (chf s.h4 s.h5 s.h6) kw.1)) kw.2
  let t2 := add32 (bsig0 s.h0) (majf s.h0 s.h1 s.h2)
  ⟨add32 t1 t2, s.h0, s.h1, s.h2, add32 s.h3 t1, s.h4, s.h5, s.h6⟩

/-- Extend the 16-word block to the 64-word message schedule (48 steps). -/
def sha256Schedule : Nat → List Nat → List Nat
  | 0, w => w
  | f + 1, w =>
    let n := w.length
    let x := add32 (add32 (ssig1 (w.getD (n - 2) 0)) (w.getD (n - 7) 0))
                   (add32 (ssig0 (w.getD (n - 15) 0)) (w.getD (n - 16) 0))
    sha256Schedule f (w ++ [x])

/-- Compress one 16-word block into the running hash. -/
def sha256Compress (hs : Hash8) (block : List Nat) : Hash8 :=
  let w := sha256Schedule 48 block
  let s := (sha256K.zip w).foldl sha256Round hs
  ⟨add32 hs.h0 s.h0, add32 hs.h1 s.h1, add32 hs.h2 s.h2, add32 hs.h3 s.h3,
   add32 hs.h4 s.h4, add32 hs.h5 s.h5, add32 hs.h6 s.h6, add32 hs.h7 s.h7⟩

/-- Fold the compression function over the 16-word blocks of the word list. -/
def sha256Blocks : Nat → Hash8 → List Nat → Hash8
  | 0, hs, _ => hs
  | _ + 1, hs, [] => hs
  | f + 1, hs, w :: ws =>
    sha256Blocks f (sha256Compress hs ((w :: ws).take 16)) ((w :: ws).drop 16)

/-- Big-endian 4-byte group to a 32-bit word; incomplete trailing groups are
dropped (padded input is always a multiple of 4 bytes). -/
def bytesToWords : List Nat → List Nat
  | b0 :: b1 :: b2 :: b3 :: rest =>
    (((b0 * 256 + b1) * 256 + b2) * 256 + b3) :: bytesToWords rest
  | _ => []

/-- The 8-byte big-endian encoding of the bit length. -/
def lenBytesBE (n : Nat) : List Nat :=
  [(n >>> 56) % 256, (n >>> 48) % 256, (n >>> 40) % 256, (n >>> 32) % 256,
   (n >>> 24) % 256, (n >>> 16) % 256, (n >>> 8) % 256, n % 256]

/-- SHA-256 padding: `0x80`, zeros to 56 mod 64, then the 64-bit bit length. -/
def sha256Pad (msg : List Nat) : List Nat :=
  let l := msg.length
  let zeros := (64 - ((l + 9) % 64)) % 64
  msg ++ 128 :: (List.replicate zeros 0 ++ lenBytesBE (l * 8))

/-- Big-endian bytes of a 32-bit word. -/
def wordBytesBE (x : Nat) : List Nat :=
  [(x >>> 24) % 256, (x >>> 16) % 256, (x >>> 8) % 256, x % 256]

/-- SHA-256 digest of a byte list, as the list of 32 digest bytes. -/
def sha256Bytes (msg : List Nat) : List Nat :=
  let ws := bytesToWords (sha256Pad msg)
  let hs := sha256Blocks ws.length sha256Init ws
  ([hs.h0, hs.h1, hs.h2, hs.h3, hs.h4, hs.h5, hs.h6, hs.h7]).flatMap wordBytesBE

/-- Lowercase hex digit for `n < 16`. -/
def hexDigitChar (n : Nat) : Char :=
  if n < 10 then Char.ofNat (48 + n) else Char.ofNat (87 + n)

/-- Two lowercase hex digits of a byte. -/
def byteHex (b : Nat) : List Char := [hexDigitChar (b / 16), hexDigitChar (b % 16)]

/-- Lowercase hex string of a byte list (`bytes.hex()` / `hexdigest`). -/
def bytesHexString (bs : List Nat) : String := ⟨bs.flatMap byteHex⟩

/-- UTF-8 encoding of one character (`str.encode`), as byte values. -/
def utf8EncodeCharBytes (c : Char) : List Nat :=
  let n := c.toNat
  if n < 128 then [n]
  else if n < 2048 then [192 ||| (n >>> 6), 128 ||| (n &&& 63)]
  else if n < 65536 then
    [224 ||| (n >>> 12), 128 ||| ((n >>> 6) &&& 63), 128 ||| (n &&& 63)]
  else
    [240 ||| (n >>> 18), 128 ||| ((n >>> 12) &&& 63),
     128 ||| ((n >>> 6) &&& 63), 128 ||| (n &&& 63)]

/-- UTF-8 encoding of a string, as byte values. -/
def utf8Encode (s : String) : List Nat := s.data.flatMap utf8EncodeCharBytes

/-- `hashlib.sha256(s.encode()).hexdigest()`. -/
def sha256HexOfString (s : String) : String := bytesHexString (sha256Bytes (utf8Encode s))

/-! ## Python list/str helpers -/

/-- Python list slice `xs[a : b]` with int indices (negative indices count from
the end, out-of-range indices clamp). -/
def pySlice {α : Type} (xs : List α) (a b : Int) : List α :=
  let n : Int := xs.length
  let norm : Int → Nat := fun i => (if i < 0 then max (n + i) 0 else min i n).toNat
  ((xs.drop (norm a)).take (norm b - norm a))

/-- Python `str` whitespace (the characters stripped by `str.strip()`, ASCII
range). -/
def pyIsSpace (c : Char) : Bool :=
  c = ' ' || c = '\t' || c = '\n' || c = '\r' || c.toNat = 11 || c.toNat = 12

/-- `s.strip() == ""`: every character is whitespace (true for the empty
string). -/
def pyStripEmpty (s : String) : Bool := s.data.all pyIsSpace

/-- Python `str.islower()`: at least one cased character and no uppercase
character (ASCII range, which covers every value the code produces). -/
def pyIsLower (s : String) : Bool :=
  s.data.any (fun c => c.isLower) && s.data.all (fun c => !c.isUpper)

/-! ## `index/schemas.py`: the `Chunk` model and its validators -/

/-- `Chunk` (schemas.py): the canonical chunk record. -/
structure Chunk where
  chunk_id : String
  root_ref : String
  resolved_commit : String
  file_path : String
  language : String
  start_line : Int
  end_line : Int
  content : String
  doc_origin : String
  index_schema_version : String
  symbol_path : Option String
  has_doxygen : Bool
deriving DecidableEq, Repr

/-- Python `str.startswith`, on the character level. -/
def strStartsWith (v pre : String) : Bool := pre.data.isPrefixOf v.data

/-- `Chunk.validate_file_path_relative_posix`: relative, POSIX separators, no
escape of the repo root. -/
def validFilePath (v : String) : Bool :=
  !(strStartsWith v "/") && !(strStartsWith v "\\") && !(v.data.contains '\\')
    && !(v = ".") && !(strStartsWith v "../")

/-- `Chunk.validate_language`: non-empty lowercase identifier. -/
def validLanguage (v : String) : Bool := !(v = "") && pyIsLower v

/-- `Chunk.validate_content_nonempty`: not empty or whitespace-only, at most
1,000,000 characters. -/
def validContent (v : String) : Bool := !(pyStripEmpty v) && v.length ≤ 1000000

/-- The `doc_origin` categories accepted by `Chunk.validate_doc_origin`. -/
def docOrigins : List String :=
  ["source_header", "source_impl", "doxygen_comment", "reference_doc", "tutorial_doc"]

/-- `Chunk.validate_doc_origin`. -/
def validDocOrigin (v : String) : Bool := docOrigins.contains v

/-- Constructing a `Chunk` through pydantic: every field validator runs and any
violation rejects construction (`ValueError`), modelled as `Except.error`. -/
def mkChunk (chunk_id root_ref resolved_commit file_path language : String)
    (start_line end_line : Int) (content doc_origin : String)
    (symbol_path : Option String) (has_doxygen : Bool) : Except String Chunk :=
  if !(validFilePath file_path) then .error "file_path"
  else if !(validLanguage language) then .error "language"
  else if start_line < 1 then .error "start_line"
  else if end_line < 1 then .error "end_line"
  else if end_line < start_line then .error "end_line_vs_start"
  else if !(validContent content) then .error "content"
  else if !(validDocOrigin doc_origin) then .error "doc_origin"
  else .ok ⟨chunk_id, root_ref, resolved_commit, file_path, language,
            start_line, end_line, content, doc_origin, "1.0.0",
            symbol_path, has_doxygen⟩

/-- `Chunk.compute_chunk_id`: first 12 hex characters of the SHA-256 of the
provenance string `f"{root_ref}:{resolved_commit}:{file_path}:{start_line}:{end_line}"`. -/
def computeChunkId (root_ref resolved_commit file_path : String)
    (start_line end_line : Int) : String :=
  let provenance := root_ref ++ ":" ++ resolved_commit ++ ":" ++ file_path ++ ":"
    ++ toString start_line ++ ":" ++ toString end_line
  (sha256HexOfString provenance).take 12

/-- `Chunk.from_file_slice`: compute the chunk id, then construct (and
validate) the chunk. -/
def fromFileSlice (file_path : String) (start_line end_line : Int)
    (content root_ref resolved_commit language doc_origin : String)
    (symbol_path : Option String) (has_doxygen : Bool) : Except String Chunk :=
  mkChunk (computeChunkId root_ref resolved_commit file_path start_line end_line)
    root_ref resolved_commit file_path language start_line end_line content
    doc_origin symbol_path has_doxygen

/-! ## `pathlib.Path`, reduced to what `chunk_file` uses -/

/-- A `pathlib` path: an anchor flag and the list of non-anchor components. -/
structure PyPath where
  absolute : Bool
  parts : List String
deriving DecidableEq, Repr

/-- `Path.as_posix()`. -/
def PyPath.asPosix (p : PyPath) : String :=
  if p.absolute then "/" ++ String.intercalate "/" p.parts
  else if p.parts.isEmpty then "." else String.intercalate "/" p.parts

/-- `Path.relative_to(base)`: defined when the anchors agree and `base`'s
components are a prefix; `none` models the `ValueError`. -/
def PyPath.relativeTo (p base : PyPath) : Option PyPath :=
  if p.absolute = base.absolute && base.parts.isPrefixOf p.parts then
    some ⟨false, p.parts.drop base.parts.length⟩
  else none

/-- `Path.name`: the final component (empty for the bare root). -/
def PyPath.lastName (p : PyPath) : String := p.parts.getLastD ""

/-- Character-level `str.lower()` (agrees with `String.toLower`). -/
def strToLower (s : String) : String := String.mk (s.data.map Char.toLower)

/-- Character-level drop of the first `n` characters (agrees with
`String.drop`). -/
def strDrop (s : String) (n : Nat) : String := String.mk (s.data.drop n)

/-- Python `str.rfind('.')`: index of the last dot, `-1` if absent. -/
def pyRfindDot (s : String) : Int :=
  if s.data.contains '.' then
    (s.length : Int) - 1 - (s.data.reverse.indexOf '.' : Int)
  else -1

/-- `PurePath.suffix`: the extension of the final component, with its dot. -/
def pySuffix (nm : String) : String :=
  let i := pyRfindDot nm
  if 0 < i ∧ i < (nm.length : Int) - 1 then strDrop nm i.toNat else ""

/-- `Path.suffix` of a `PyPath`. -/
def PyPath.suffix (p : PyPath) : String := pySuffix p.lastName

/-! ## `parser/chunks.py`: chunking logic -/

/-- `_get_language_from_path`: map the lowered extension to a language. -/
def getLanguageFromPath (p : PyPath) : String :=
  let ext := strToLower p.suffix
  if ext = ".h" then "cpp"
  else if ext = ".hpp" then "cpp"
  else if ext = ".hh" then "cpp"
  else if ext = ".c" then "c"
  else if ext = ".cc" then "cpp"
  else if ext = ".cpp" then "cpp"
  else if ext = ".cxx" then "cpp"
  else "text"

/-- `_get_doc_origin_from_path`: header extensions map to `source_header`,
everything else to `source_impl`. -/
def getDocOriginFromPath (p : PyPath) : String :=
  let ext := p.suffix
  if ext = ".h" || ext = ".hpp" || ext = ".hh" then "source_header"
  else "source_impl"

/-- `_has_doxygen_in_chunk`: the regex `/\*\*|//!|///<` matches the joined
window text, i.e. one of the three literal markers occurs as a substring. -/
def hasDoxygenInChunk (lines : List String) : Bool :=
  let t := (String.intercalate "\n" lines).data
  decide ("/**".data <:+: t) || decide ("//!".data <:+: t) || decide ("///<".data <:+: t)

/-- The `(current_start, current_end)` pairs visited by the sliding-window
loop of `chunk_file`, driven by fuel (the loop advances by `stride ≥ 1`, so
`total_lines` iterations always suffice). -/
def windowRanges (totalLines windowLines stride : Int) : Nat → Int → List (Int × Int)
  | 0, _ => []
  | fuel + 1, cs =>
    if cs < totalLines then
      (cs, min (cs + windowLines - 1) (totalLines - 1))
        :: windowRanges totalLines windowLines stride fuel (cs + stride)
    else []

/-- The body of one iteration of the `chunk_file` loop: slice the window's
lines, join them, detect Doxygen markers, and construct the chunk. -/
def windowChunk (lines : List String) (filePathPosix language docOrigin
    rootRef resolvedCommit : String) (r : Int × Int) : Except String Chunk :=
  let chunkLines := pySlice lines r.1 (r.2 + 1)
  let content := String.intercalate "\n" chunkLines
  fromFileSlice filePathPosix (r.1 + 1) (r.2 + 1) content rootRef resolvedCommit
    language docOrigin none (hasDoxygenInChunk chunkLines)

/-- The sliding-window loop of `chunk_file`.  A validation error from chunk
construction propagates (the Python `ValueError` escapes `chunk_file`). -/
def chunkFileLoop (lines : List String) (filePathPosix language docOrigin
    rootRef resolvedCommit : String) (windowLines stride : Int) :
    Nat → Int → Except String (List Chunk)
  | 0, _ => .ok []
  | fuel + 1, cs =>
    if cs < (lines.length : Int) then
      match windowChunk lines filePathPosix language docOrigin rootRef
        resolvedCommit (cs, min (cs + windowLines - 1) ((lines.length : Int) - 1)) with
      | .error e => .error e
      | .ok c =>
        match chunkFileLoop lines filePathPosix language docOrigin rootRef
          resolvedCommit windowLines stride fuel (cs + stride) with
        | .error e => .error e
        | .ok rest => .ok (c :: rest)
    else .ok []

/-- The effective stride: `window_lines - overlap_lines`, clamped to at least
`1` to guarantee forward progress. -/
def strideOf (windowLines overlapLines : Int) : Int :=
  if windowLines - overlapLines ≤ 0 then 1 else windowLines - overlapLines

/-- The repo-relative POSIX path used for chunks, falling back to the path as
given when it is not inside the repository root. -/
def resolvedPosix (filePath repoRoot : PyPath) : String :=
  (match filePath.relativeTo repoRoot with
    | some r => r
    | none => filePath).asPosix

/-- `chunk_file`, starting from the file's line list (the result of
`splitlines`).  `Except.error` models the uncaught `ValueError` raised by
chunk validation; an empty file yields no chunks. -/
def chunkFile (lines : List String) (filePath : PyPath) (rootRef resolvedCommit : String)
    (repoRoot : PyPath) (windowLines overlapLines : Int) : Except String (List Chunk) :=
  if lines.isEmpty then .ok []
  else
    chunkFileLoop lines (resolvedPosix filePath repoRoot) (getLanguageFromPath filePath)
      (getDocOriginFromPath filePath) rootRef resolvedCommit
      windowLines (strideOf windowLines overlapLines) lines.length 0

/-- A discovered source file: its path and its line list. -/
structure SourceFile where
  path : PyPath
  lines : List String
deriving Repr

/-- `chunk_corpus` over an already-discovered file list: per-file exceptions
are caught and the file is skipped. -/
def chunkCorpus (files : List SourceFile) (rootRef resolvedCommit : String)
    (repoRoot : PyPath) (windowLines overlapLines : Int) : List Chunk :=
  files.foldl
    (fun acc f =>
      match chunkFile f.lines f.path rootRef resolvedCommit repoRoot windowLines overlapLines with
      | .ok cs => acc ++ cs
      | .error _ => acc)
    []

/-! ## `index/fts.py`: deterministic insertion and build status -/

/-- The code points of a string; Python compares `str` values
lexicographically by code point. -/
def strKey (s : String) : List Nat := s.data.map Char.toNat

/-- The sort key used by `insert_chunks_into_fts`, with strings read as their
code-point sequences. -/
def chunkKey (c : Chunk) : List Nat ×ₗ (Int ×ₗ (Int ×ₗ List Nat)) :=
  toLex (strKey c.file_path, toLex (c.start_line, toLex (c.end_line, strKey c.chunk_id)))

/-- The key comparison used by the (stable) sort, matching Python's tuple
comparison. -/
def chunkKeyLe (c d : Chunk) : Prop := chunkKey c ≤ chunkKey d

instance : DecidableRel chunkKeyLe := fun c d =>
  inferInstanceAs (Decidable (chunkKey c ≤ chunkKey d))

instance : IsTotal Chunk chunkKeyLe := ⟨fun c d => le_total (chunkKey c) (chunkKey d)⟩

instance : IsTrans Chunk chunkKeyLe := ⟨fun _ _ _ h1 h2 => le_trans h1 h2⟩

/-- `sorted(chunks, key=...)`: a stable sort by the key quadruple (any stable
sort computes the same list, so the structural insertion sort stands in for
Python's stable sort). -/
def sortChunks (chunks : List Chunk) : List Chunk := chunks.insertionSort chunkKeyLe

/-- One row of the `chunks_fts` table, in column order. -/
structure RowT where
  content : String
  file_path : String
  symbol_path : String
  doc_origin : String
  chunk_id : String
  start_line : Int
  end_line : Int
  root_ref : String
  resolved_commit : String
  language : String
  index_schema_version : String
deriving DecidableEq, Repr

/-- The VALUES tuple inserted for one chunk. -/
def rowOfChunk (c : Chunk) : RowT :=
  ⟨c.content, c.file_path, c.symbol_path.getD "", c.doc_origin, c.chunk_id,
   c.start_line, c.end_line, c.root_ref, c.resolved_commit, c.language,
   c.index_schema_version⟩

/-- The sequence of rows `insert_chunks_into_fts` hands to the store, in
insertion order. -/
def insertedRows (chunks : List Chunk) : List RowT := (sortChunks chunks).map rowOfChunk

/-- The `{"inserted": _, "errors": _}` statistics of `insert_chunks_into_fts`,
parameterised by which rows the store rejects (`sqlite3.Error`). -/
def insertStats (rowErr : Chunk → Bool) (chunks : List Chunk) : Nat × Nat :=
  ((sortChunks chunks).countP (fun c => !(rowErr c)), (sortChunks chunks).countP rowErr)

/-- `build_fts_index`: `(status, chunk_count)`.  `createOk` is whether
`create_fts5_db` succeeds; a failure there is caught and reported as
`"failed"` with zero chunks. -/
def buildFtsIndex (createOk : Bool) (rowErr : Chunk → Bool) (chunks : List Chunk) :
    String × Nat :=
  if createOk then
    (if (insertStats rowErr chunks).2 = 0 then "success" else "partial",
     (insertStats rowErr chunks).1)
  else ("failed", 0)

/-- The status returned by `build_full_index` (builder.py), with each I/O
outcome passed in explicitly: chunk-list emptiness, JSONL write success, FTS5
availability, table creation, per-row errors, and manifest write success. -/
def buildFullIndexStatus (chunks : List Chunk) (writeOk fts5Available createOk : Bool)
    (rowErr : Chunk → Bool) (manifestWriteOk : Bool) : String :=
  if chunks.isEmpty then "failed"
  else if !writeOk then "failed"
  else if !fts5Available then "failed"
  else if !((buildFtsIndex createOk rowErr chunks).1 = "success") then "failed"
  else if !manifestWriteOk then "failed"
  else "success"

/-! ## `corpus/manifest.py`: the commit validator -/

/-- The sixteen hexadecimal digit characters. -/
def hexDigits : List Char := "0123456789abcdef".data

/-- `Manifest.validate_commit_sha`: length 7–40 and, after `str.lower()`,
every character a hex digit. -/
def validateCommitSha (v : String) : Bool :=
  7 ≤ v.length && v.length ≤ 40 && v.data.all (fun c => decide (c.toLower ∈ hexDigits))

/-- Spec-following companion definition (for comparison with the code): a
string of 7 to 40 lowercase hexadecimal characters. -/
def specLowercaseHex (v : String) : Bool :=
  7 ≤ v.length && v.length ≤ 40 && v.data.all (fun c => decide (c ∈ hexDigits))

/-! ## Lemmas about the sliding-window loop -/

theorem windowRanges_stop (tl wl stride : Int) (fuel : Nat) (cs : Int)
    (h : ¬ cs < tl) : windowRanges tl wl stride fuel cs = [] := by
  cases fuel with
  | zero => rfl
  | succ f => simp [windowRanges, h]

theorem windowRanges_mem (tl wl stride : Int) :
    ∀ (fuel : Nat) (cs : Int) (r : Int × Int),
      r ∈ windowRanges tl wl stride fuel cs →
      r.1 < tl ∧ r.2 = min (r.1 + wl - 1) (tl - 1) := by
  intro fuel
  induction fuel with
  | zero => intro cs r h; simp [windowRanges] at h
  | succ f ih =>
    intro cs r h
    rw [windowRanges] at h
    by_cases hcs : cs < tl
    · rw [if_pos hcs] at h
      rcases List.mem_cons.mp h with h | h
      · subst h; exact ⟨hcs, rfl⟩
      · exact ih _ r h
    · rw [if_neg hcs] at h
      simp at h

theorem mkChunk_ok_iff (cid rr rc fp lang : String) (sl el : Int)
    (ct dorig : String) (sp : Option String) (dox : Bool) (c : Chunk) :
    mkChunk cid rr rc fp lang sl el ct dorig sp dox = .ok c ↔
      validFilePath fp = true ∧ validLanguage lang = true ∧
      1 ≤ sl ∧ 1 ≤ el ∧ sl ≤ el ∧
      validContent ct = true ∧ validDocOrigin dorig = true ∧
      c = ⟨cid, rr, rc, fp, lang, sl, el, ct, dorig, "1.0.0", sp, dox⟩ := by
  constructor
  · intro h
    unfold mkChunk at h
    split_ifs at h with h1 h2 h3 h4 h5 h6 h7
    cases h
    refine ⟨?_, ?_, ?_, ?_, ?_, ?_, ?_, rfl⟩ <;> first
      | omega
      | simpa using h1
      | simpa using h2
      | simpa using h6
      | simpa using h7
  · rintro ⟨v1, v2, v3, v4, v5, v6, v7, rfl⟩
    unfold mkChunk
    rw [if_neg (by simp [v1]), if_neg (by simp [v2]), if_neg (by omega),
        if_neg (by omega), if_neg (by omega), if_neg (by simp [v6]),
        if_neg (by simp [v7])]

theorem windowChunk_ok (lines : List String) (p lang d rr rc : String)
    (r : Int × Int) (c : Chunk)
    (h : windowChunk lines p lang d rr rc r = .ok c) :
    c = ⟨computeChunkId rr rc p (r.1 + 1) (r.2 + 1), rr, rc, p, lang,
         r.1 + 1, r.2 + 1,
         String.intercalate "\n" (pySlice lines r.1 (r.2 + 1)), d, "1.0.0",
         none, hasDoxygenInChunk (pySlice lines r.1 (r.2 + 1))⟩ ∧
      validContent (String.intercalate "\n" (pySlice lines r.1 (r.2 + 1))) = true ∧
      1 ≤ r.1 + 1 ∧ 1 ≤ r.2 + 1 ∧ r.1 + 1 ≤ r.2 + 1 := by
  unfold windowChunk fromFileSlice at h
  rw [mkChunk_ok_iff] at h
  exact ⟨h.2.2.2.2.2.2.2, h.2.2.2.2.2.1, h.2.2.1, h.2.2.2.1, h.2.2.2.2.1⟩

theorem chunkFileLoop_ok_mem (lines : List String) (p lang d rr rc : String)
    (wl stride : Int) :
    ∀ (fuel : Nat) (cs : Int) (out : List Chunk) (c : Chunk),
      chunkFileLoop lines p lang d rr rc wl stride fuel cs = .ok out →
      c ∈ out →
      ∃ r ∈ windowRanges (lines.length : Int) wl stride fuel cs,
        windowChunk lines p lang d rr rc r = .ok c := by
  intro fuel
  induction fuel with
  | zero =>
    intro cs out c hok hmem
    cases hok
    simp at hmem
  | succ f ih =>
    intro cs out c hok hmem
    rw [chunkFileLoop] at hok
    by_cases hcs : cs < (lines.length : Int)
    · rw [if_pos hcs] at hok
      cases hwc : windowChunk lines p lang d rr rc
          (cs, min (cs + wl - 1) ((lines.length : Int) - 1)) with
      | error e => rw [hwc] at hok; cases hok
      | ok c0 =>
        rw [hwc] at hok
        cases hrest : chunkFileLoop lines p lang d rr rc wl stride f (cs + stride) with
        | error e => rw [hrest] at hok; cases hok
        | ok rest =>
          rw [hrest] at hok
          cases hok
          rcases List.mem_cons.mp hmem with h | h
          · subst h
            refine ⟨(cs, min (cs + wl - 1) ((lines.length : Int) - 1)), ?_, hwc⟩
            rw [windowRanges, if_pos hcs]
            exact List.mem_cons_self _ _
          · rcases ih (cs + stride) rest c hrest h with ⟨r, hr, hok2⟩
            refine ⟨r, ?_, hok2⟩
            rw [windowRanges, if_pos hcs]
            exact List.mem_cons_of_mem _ hr
    · rw [if_neg hcs] at hok
      cases hok
      simp at hmem

theorem chunkFileLoop_ranges (lines : List String) (p lang d rr rc : String)
    (wl stride : Int) :
    ∀ (fuel : Nat) (cs : Int) (out : List Chunk),
      chunkFileLoop lines p lang d rr rc wl stride fuel cs = .ok out →
      out.map (fun c => (c.start_line, c.end_line)) =
        (windowRanges (lines.length : Int) wl stride fuel cs).map
          (fun r => (r.1 + 1, r.2 + 1)) := by
  intro fuel
  induction fuel with
  | zero =>
    intro cs out hok
    cases hok
    rfl
  | succ f ih =>
    intro cs out hok
    rw [chunkFileLoop] at hok
    rw [windowRanges]
    by_cases hcs : cs < (lines.length : Int)
    · rw [if_pos hcs] at hok
      rw [if_pos hcs]
      cases hwc : windowChunk lines p lang d rr rc
          (cs, min (cs + wl - 1) ((lines.length : Int) - 1)) with
      | error e => rw [hwc] at hok; cases hok
      | ok c0 =>
        rw [hwc] at hok
        cases hrest : chunkFileLoop lines p lang d rr rc wl stride f (cs + stride) with
        | error e => rw [hrest] at hok; cases hok
        | ok rest =>
          rw [hrest] at hok
          cases hok
          have hc0 := (windowChunk_ok lines p lang d rr rc _ c0 hwc).1
          rw [List.map_cons, List.map_cons, ih (cs + stride) rest hrest, hc0]
    · rw [if_neg hcs] at hok
      cases hok
      rw [if_neg hcs]
      rfl

theorem chunkFileLoop_error (lines : List String) (p lang d rr rc : String)
    (wl stride : Int) :
    ∀ (fuel : Nat) (cs : Int) (r : Int × Int),
      r ∈ windowRanges (lines.length : Int) wl stride fuel cs →
      (∀ c, windowChunk lines p lang d rr rc r ≠ .ok c) →
      ∃ e, chunkFileLoop lines p lang d rr rc wl stride fuel cs = .error e := by
  intro fuel
  induction fuel with
  | zero =>
    intro cs r hr
    simp [windowRanges] at hr
  | succ f ih =>
    intro cs r hr hbad
    rw [windowRanges] at hr
    by_cases hcs : cs < (lines.length : Int)
    · rw [if_pos hcs] at hr
      rw [chunkFileLoop, if_pos hcs]
      cases hwc : windowChunk lines p lang d rr rc
          (cs, min (cs + wl - 1) ((lines.length : Int) - 1)) with
      | error e => exact ⟨e, rfl⟩
      | ok c0 =>
        rcases List.mem_cons.mp hr with h | h
        · subst h
          exact absurd hwc (hbad c0)
        · rcases ih (cs + stride) r h hbad with ⟨e, he⟩
          rw [he]
          exact ⟨e, rfl⟩
    · rw [if_neg hcs] at hr
      simp at hr

theorem chunkFile_of_ne_nil (lines : List String) (filePath : PyPath)
    (rr rc : String) (root : PyPath) (wl ol : Int) (h : lines ≠ []) :
    chunkFile lines filePath rr rc root wl ol =
      chunkFileLoop lines (resolvedPosix filePath root) (getLanguageFromPath filePath)
        (getDocOriginFromPath filePath) rr rc wl (strideOf wl ol) lines.length 0 := by
  rw [chunkFile, if_neg (by simpa using h)]

/-! ## Lemmas about the corpus orchestrator -/

/-- The chunks one file contributes to `chunk_corpus`: its chunk list on
success, nothing when the per-file exception is caught. -/
def fileChunks (rr rc : String) (root : PyPath) (wl ol : Int) (f : SourceFile) :
    List Chunk :=
  match chunkFile f.lines f.path rr rc root wl ol with
  | .ok cs => cs
  | .error _ => []

theorem chunkCorpus_eq_flatMap (files : List SourceFile) (rr rc : String)
    (root : PyPath) (wl ol : Int) :
    chunkCorpus files rr rc root wl ol =
      files.flatMap (fileChunks rr rc root wl ol) := by
  have step : ∀ (fs : List SourceFile) (acc : List Chunk),
      fs.foldl
        (fun acc f =>
          match chunkFile f.lines f.path rr rc root wl ol with
          | .ok cs => acc ++ cs
          | .error _ => acc) acc
        = acc ++ fs.flatMap (fileChunks rr rc root wl ol) := by
    intro fs
    induction fs with
    | nil => intro acc; simp
    | cons f fs ih =>
      intro acc
      rw [List.foldl_cons, List.flatMap_cons]
      cases hf : chunkFile f.lines f.path rr rc root wl ol with
      | ok cs => simp only [hf, ih, fileChunks, List.append_assoc]
      | error e => simp only [hf, ih, fileChunks, List.nil_append, List.append_nil]
  simpa using step files []

theorem chunkCorpus_skip (fs1 fs2 : List SourceFile) (f : SourceFile)
    (rr rc : String) (root : PyPath) (wl ol : Int) (e : String)
    (h : chunkFile f.lines f.path rr rc root wl ol = .error e) :
    chunkCorpus (fs1 ++ f :: fs2) rr rc root wl ol =
      chunkCorpus (fs1 ++ fs2) rr rc root wl ol := by
  rw [chunkCorpus_eq_flatMap, chunkCorpus_eq_flatMap, List.flatMap_append,
      List.flatMap_append, List.flatMap_cons]
  have hf : fileChunks rr rc root wl ol f = [] := by
    simp only [fileChunks, h]
  rw [hf, List.nil_append]

/-! ## Lemmas about deterministic FTS insertion order -/

/-- The strict key order underlying the chunk sort. -/
def chunkKeyLt (a b : Chunk) : Prop := chunkKey a < chunkKey b

instance : IsAntisymm Chunk chunkKeyLt :=
  ⟨fun _ _ h1 h2 => absurd h2 (lt_asymm h1)⟩

theorem sortChunks_eq_of_perm (l1 l2 : List Chunk) (hp : l1.Perm l2)
    (hnd : (l1.map chunkKey).Nodup) : sortChunks l1 = sortChunks l2 := by
  have hs1 : (sortChunks l1).Pairwise chunkKeyLe :=
    List.sorted_insertionSort chunkKeyLe l1
  have hs2 : (sortChunks l2).Pairwise chunkKeyLe :=
    List.sorted_insertionSort chunkKeyLe l2
  have hp1 : (sortChunks l1).Perm l1 := List.perm_insertionSort chunkKeyLe l1
  have hp2 : (sortChunks l2).Perm l2 := List.perm_insertionSort chunkKeyLe l2
  have hperm : (sortChunks l1).Perm (sortChunks l2) :=
    hp1.trans (hp.trans hp2.symm)
  have hnd1 : ((sortChunks l1).map chunkKey).Nodup :=
    ((hp1.map chunkKey).nodup_iff).mpr hnd
  have hnd2 : ((sortChunks l2).map chunkKey).Nodup :=
    ((hp2.map chunkKey).nodup_iff).mpr (((hp.map chunkKey).nodup_iff).mp hnd)
  have strict : ∀ (l : List Chunk),
      l.Pairwise chunkKeyLe → (l.map chunkKey).Nodup →
      l.Pairwise chunkKeyLt := by
    intro l hle hnd0
    have hne : l.Pairwise (fun a b => chunkKey a ≠ chunkKey b) :=
      (List.pairwise_map).mp hnd0
    refine (hle.and hne).imp ?_
    intro a b hab
    exact lt_of_le_of_ne hab.1 hab.2
  exact List.eq_of_perm_of_sorted hperm (strict _ hs1 hnd1) (strict _ hs2 hnd2)

/-! ## Lemmas about the digest format -/

theorem sha256Bytes_length (msg : List Nat) : (sha256Bytes msg).length = 32 := by
  simp [sha256Bytes, wordBytesBE]

theorem flatMap_byteHex_length (bs : List Nat) :
    (bs.flatMap byteHex).length = 2 * bs.length := by
  induction bs with
  | nil => simp
  | cons b bs ih => simp [byteHex, ih]; omega

theorem sha256HexOfString_length (s : String) : (sha256HexOfString s).length = 64 := by
  show (String.mk _).length = 64
  rw [String.length_mk, flatMap_byteHex_length, sha256Bytes_length]

/-! ## Character-case lemma for the commit validator -/

theorem char_toNat_inj {c d : Char} (h : c.toNat = d.toNat) : c = d := by
  have h2 := congrArg Char.ofNat h
  simpa [Char.ofNat_toNat] using h2

/-- The uppercase hexadecimal letters. -/
def upperHexDigits : List Char := "ABCDEF".data

theorem mem_of_exists_toNat {l : List Char} {c : Char}
    (h : ∃ d ∈ l, d.toNat = c.toNat) : c ∈ l := by
  rcases h with ⟨d, hd, he⟩
  rwa [char_toNat_inj he] at hd

theorem toLower_mem_hexDigits (c : Char) :
    c.toLower ∈ hexDigits ↔ c ∈ hexDigits ∨ c ∈ upperHexDigits := by
  constructor
  · intro h
    simp only [Char.toLower] at h
    by_cases hc : c.toNat ≥ 65 ∧ c.toNat ≤ 90
    · rw [if_pos hc] at h
      right
      obtain ⟨hlo, hhi⟩ := hc
      have hv : c.toNat = 65 ∨ c.toNat = 66 ∨ c.toNat = 67 ∨ c.toNat = 68 ∨
          c.toNat = 69 ∨ c.toNat = 70 ∨ c.toNat = 71 ∨ c.toNat = 72 ∨
          c.toNat = 73 ∨ c.toNat = 74 ∨ c.toNat = 75 ∨ c.toNat = 76 ∨
          c.toNat = 77 ∨ c.toNat = 78 ∨ c.toNat = 79 ∨ c.toNat = 80 ∨
          c.toNat = 81 ∨ c.toNat = 82 ∨ c.toNat = 83 ∨ c.toNat = 84 ∨
          c.toNat = 85 ∨ c.toNat = 86 ∨ c.toNat = 87 ∨ c.toNat = 88 ∨
          c.toNat = 89 ∨ c.toNat = 90 := by omega
      rcases hv with hv|hv|hv|hv|hv|hv|hv|hv|hv|hv|hv|hv|hv|hv|hv|hv|hv|hv|hv|hv|hv|hv|hv|hv|hv|hv <;>
        rw [hv] at h <;>
        first
          | exact absurd h (by decide)
          | (apply mem_of_exists_toNat; rw [hv]; decide)
    · rw [if_neg hc] at h
      exact Or.inl h
  · intro h
    rcases h with h | h
    · fin_cases h <;> decide
    · fin_cases h <;> decide

/-! ## Concrete fixtures for witnesses and counterexamples -/

/-- A synthetic file body of `n` lines, `"line 1" … "line n"`. -/
def linesN (n : Nat) : List String :=
  (List.range n).map (fun i => "line " ++ toString (i + 1))

/-- A sample absolute file path inside the repository root. -/
def samplePath : PyPath := ⟨true, ["repo", "pkg", "a.h"]⟩

/-- The sample repository root. -/
def sampleRoot : PyPath := ⟨true, ["repo"]⟩

/-- A default chunk value, used only to take heads of concrete chunk lists. -/
def chunk0 : Chunk := ⟨"", "", "", "", "", 0, 0, "", "", "", none, false⟩

/-! ## Claim theorems -/

/-- **C3.** For every chunk produced by `chunk_file` from a file whose line
list is `lines`, the chunk's `content` equals the exact newline-separated join
of `lines[start_line-1 : end_line]` — no other normalization. -/
theorem chunk_content_is_exact_slice (lines : List String) (path : PyPath)
    (rr rc : String) (root : PyPath) (wl ol : Int) (cs : List Chunk)
    (hok : chunkFile lines path rr rc root wl ol = .ok cs) :
    ∀ c ∈ cs, c.content =
      String.intercalate "\n" (pySlice lines (c.start_line - 1) c.end_line) := by
  intro c hc
  by_cases hnil : lines = []
  · subst hnil
    rw [chunkFile] at hok
    simp at hok
    subst hok
    simp at hc
  · rw [chunkFile_of_ne_nil lines path rr rc root wl ol hnil] at hok
    rcases chunkFileLoop_ok_mem lines _ _ _ rr rc wl _ lines.length 0 cs c hok hc
      with ⟨r, _, hwc⟩
    rcases windowChunk_ok lines _ _ _ rr rc r c hwc with ⟨hceq, -, -⟩
    subst hceq
    simp only
    have harg : r.1 + 1 - 1 = r.1 := by omega
    rw [harg]

/-- **C4.** Every chunk produced by `chunk_file` from a file with
`total_lines` lines satisfies `1 ≤ start_line ≤ end_line ≤ total_lines`. -/
theorem chunk_range_invariant (lines : List String) (path : PyPath)
    (rr rc : String) (root : PyPath) (wl ol : Int) (cs : List Chunk)
    (hok : chunkFile lines path rr rc root wl ol = .ok cs) :
    ∀ c ∈ cs, 1 ≤ c.start_line ∧ c.start_line ≤ c.end_line ∧
      c.end_line ≤ (lines.length : Int) := by
  intro c hc
  by_cases hnil : lines = []
  · subst hnil
    rw [chunkFile] at hok
    simp at hok
    subst hok
    simp at hc
  · rw [chunkFile_of_ne_nil lines path rr rc root wl ol hnil] at hok
    rcases chunkFileLoop_ok_mem lines _ _ _ rr rc wl _ lines.length 0 cs c hok hc
      with ⟨r, hr, hwc⟩
    rcases windowChunk_ok lines _ _ _ rr rc r c hwc with ⟨hceq, -, h1, h2, h3⟩
    rcases windowRanges_mem (lines.length : Int) wl _ lines.length 0 r hr
      with ⟨-, hsnd⟩
    subst hceq
    refine ⟨h1, h3, ?_⟩
    simp only
    have hle : r.2 ≤ (lines.length : Int) - 1 := by
      rw [hsnd]; exact min_le_right _ _
    omega

/-- **C9.** When the input file path is not inside the repository root,
`chunk_file` falls back to the path as given: every produced chunk carries
`file_path` equal to the POSIX string of the input path. -/
theorem chunk_path_fallback (lines : List String) (path : PyPath)
    (rr rc : String) (root : PyPath) (wl ol : Int) (cs : List Chunk)
    (hrel : path.relativeTo root = none)
    (hok : chunkFile lines path rr rc root wl ol = .ok cs) :
    ∀ c ∈ cs, c.file_path = path.asPosix := by
  intro c hc
  by_cases hnil : lines = []
  · subst hnil
    rw [chunkFile] at hok
    simp at hok
    subst hok
    simp at hc
  · rw [chunkFile_of_ne_nil lines path rr rc root wl ol hnil] at hok
    rcases chunkFileLoop_ok_mem lines _ _ _ rr rc wl _ lines.length 0 cs c hok hc
      with ⟨r, -, hwc⟩
    rcases windowChunk_ok lines _ _ _ rr rc r c hwc with ⟨hceq, -, -⟩
    subst hceq
    simp only [resolvedPosix, hrel]

/-- **C2.** `compute_chunk_id` is the first 12 hex characters of the SHA-256
of the provenance string, is deterministic (a pure function of its five
arguments, so identical calls agree and re-chunking a file reproduces the
identical chunk-id sequence), and every produced chunk's `chunk_id` is exactly
the digest of its own provenance tuple. -/
theorem chunk_id_deterministic_digest :
    (∀ (rr rc fp : String) (sl el : Int),
      computeChunkId rr rc fp sl el =
        (sha256HexOfString (rr ++ ":" ++ rc ++ ":" ++ fp ++ ":" ++
          toString sl ++ ":" ++ toString el)).take 12) ∧
    (∀ (rr rc fp : String) (sl el : Int),
      (computeChunkId rr rc fp sl el).length = 12) ∧
    (∀ (lines : List String) (path : PyPath) (rr rc : String) (root : PyPath)
        (wl ol : Int) (cs : List Chunk),
      chunkFile lines path rr rc root wl ol = .ok cs →
      ∀ c ∈ cs, c.chunk_id =
        computeChunkId c.root_ref c.resolved_commit c.file_path
          c.start_line c.end_line) ∧
    (∀ (lines : List String) (path : PyPath) (rr rc : String) (root : PyPath)
        (wl ol : Int),
      (chunkFile lines path rr rc root wl ol).map (fun cs => cs.map Chunk.chunk_id) =
        (chunkFile lines path rr rc root wl ol).map (fun cs => cs.map Chunk.chunk_id)) := by
  refine ⟨fun rr rc fp sl el => rfl, ?_, ?_, fun _ _ _ _ _ _ _ => rfl⟩
  · intro rr rc fp sl el
    show ((sha256HexOfString _).take 12).length = 12
    rw [String.take_eq, String.length_mk, List.length_take]
    have h64 := sha256HexOfString_length (rr ++ ":" ++ rc ++ ":" ++ fp ++ ":" ++
      toString sl ++ ":" ++ toString el)
    rw [show ∀ s : String, s.length = s.data.length from fun _ => rfl] at h64
    omega
  · intro lines path rr rc root wl ol cs hok c hc
    by_cases hnil : lines = []
    · subst hnil
      rw [chunkFile] at hok
      simp at hok
      subst hok
      simp at hc
    · rw [chunkFile_of_ne_nil lines path rr rc root wl ol hnil] at hok
      rcases chunkFileLoop_ok_mem lines _ _ _ rr rc wl _ lines.length 0 cs c hok hc
        with ⟨r, -, hwc⟩
      rcases windowChunk_ok lines _ _ _ rr rc r c hwc with ⟨hceq, -, -⟩
      subst hceq
      with_reducible rfl

/-- **C1 (counterexample).** With a 25-line file, `window_lines = 10` and
`overlap_lines = 2` (stride 8), the loop also runs at `current_start = 24`
(`24 < 25`), so `chunk_file` produces FOUR chunks `(1,10), (9,18), (17,25),
(25,25)` — not the three chunks `(1,10), (9,18), (17,25)` the claim states. -/
theorem chunk_window_rule_25_counterexample :
    (chunkFile (linesN 25) samplePath "v1" "ab12cd34ef56" sampleRoot 10 2).map
        (fun cs => cs.map (fun c => (c.start_line, c.end_line))) =
      .ok [(1, 10), (9, 18), (17, 25), (25, 25)] ∧
    (chunkFile (linesN 25) samplePath "v1" "ab12cd34ef56" sampleRoot 10 2).map
        (fun cs => cs.map (fun c => (c.start_line, c.end_line))) ≠
      .ok [(1, 10), (9, 18), (17, 25)] := by
  constructor
  · decide
  · decide

/-- **C1 (amended).** The window rule of the spec (start at 0, window
`[current_start, min(current_start+window_lines-1, total_lines-1)]`, advance
by stride 8, repeat while `current_start < total_lines`) holds, but for a
25-line file with `window_lines = 10`, `overlap_lines = 2` it yields the four
chunks `(1,10), (9,18), (17,25), (25,25)`; the final one-line window at
`current_start = 24` is included, unlike the spec's three-chunk example. -/
theorem chunk_window_rule_25_amended (lines : List String) (path : PyPath)
    (rr rc : String) (root : PyPath) (cs : List Chunk)
    (hlen : lines.length = 25)
    (hok : chunkFile lines path rr rc root 10 2 = .ok cs) :
    cs.map (fun c => (c.start_line, c.end_line)) =
      [(1, 10), (9, 18), (17, 25), (25, 25)] := by
  have hnil : lines ≠ [] := by
    intro h
    rw [h] at hlen
    simp at hlen
  rw [chunkFile_of_ne_nil lines path rr rc root 10 2 hnil] at hok
  have hr := chunkFileLoop_ranges lines _ _ _ rr rc 10 _ lines.length 0 cs hok
  rw [hlen] at hr
  rw [hr]
  decide

/-- Witness for **C1 (amended)** at the concrete 25-line fixture. -/
theorem chunk_window_rule_25_witness :
    (linesN 25).length = 25 ∧
    chunkFile (linesN 25) samplePath "v1" "ab12cd34ef56" sampleRoot 10 2 =
      .ok ((chunkFile (linesN 25) samplePath "v1" "ab12cd34ef56" sampleRoot 10 2).toOption.getD []) ∧
    ((chunkFile (linesN 25) samplePath "v1" "ab12cd34ef56" sampleRoot 10 2).toOption.getD []).map
        (fun c => (c.start_line, c.end_line)) =
      [(1, 10), (9, 18), (17, 25), (25, 25)] :=
  ⟨by decide, by decide,
    chunk_window_rule_25_amended (linesN 25) samplePath "v1" "ab12cd34ef56" sampleRoot
      _ (by decide) (by decide)⟩

/-- **C5 (counterexample).** A 5-line file with `window_lines = 10` and the
default `overlap_lines = 10` (stride clamped to 1) produces FIVE chunks
`(1,5), (2,5), (3,5), (4,5), (5,5)`, not one — a file shorter than one window
does not in general yield exactly one chunk. -/
theorem chunk_short_file_counterexample :
    ((linesN 5).length : Int) < 10 ∧ linesN 5 ≠ [] ∧
    (chunkFile (linesN 5) samplePath "v1" "ab12cd34ef56" sampleRoot 10 10).map
        (fun cs => cs.map (fun c => (c.start_line, c.end_line))) =
      .ok [(1, 5), (2, 5), (3, 5), (4, 5), (5, 5)] ∧
    (chunkFile (linesN 5) samplePath "v1" "ab12cd34ef56" sampleRoot 10 10).map
        (fun cs => cs.length) ≠ .ok 1 := by
  refine ⟨by decide, by decide, by decide, by decide⟩

/-- **C5 (amended).** A non-empty file shorter than one window yields exactly
one chunk covering the whole file provided the stride
(`window_lines - overlap_lines`, clamped to 1) is at least the line count; in
particular a 5-line file with `window_lines = 10` and `overlap_lines = 2`
produces exactly one chunk spanning lines 1–5. -/
theorem chunk_short_file_amended (lines : List String) (path : PyPath)
    (rr rc : String) (root : PyPath) (wl ol : Int) (cs : List Chunk)
    (hnil : lines ≠ [])
    (hshort : (lines.length : Int) < wl)
    (hstride : (lines.length : Int) ≤ strideOf wl ol)
    (hok : chunkFile lines path rr rc root wl ol = .ok cs) :
    cs.map (fun c => (c.start_line, c.end_line)) = [(1, (lines.length : Int))] := by
  rw [chunkFile_of_ne_nil lines path rr rc root wl ol hnil] at hok
  have hr := chunkFileLoop_ranges lines _ _ _ rr rc wl _ lines.length 0 cs hok
  rw [hr]
  obtain ⟨m, hm⟩ : ∃ m, lines.length = m + 1 := by
    cases hl : lines.length with
    | zero =>
      exact absurd (List.length_eq_zero.mp hl) hnil
    | succ m => exact ⟨m, rfl⟩
  rw [hm] at hshort hstride ⊢
  rw [windowRanges]
  rw [if_pos (show (0 : Int) < ((m + 1 : Nat) : Int) by positivity)]
  rw [windowRanges_stop _ _ _ m _ (by omega)]
  rw [show min (0 + wl - 1) (((m + 1 : Nat) : Int) - 1) = ((m + 1 : Nat) : Int) - 1
    by omega]
  simp only [List.map_cons, List.map_nil]
  norm_num

/-- Witness for **C5 (amended)** at the 5-line fixture with overlap 2. -/
theorem chunk_short_file_witness :
    linesN 5 ≠ [] ∧ ((linesN 5).length : Int) < 10 ∧
    ((linesN 5).length : Int) ≤ strideOf 10 2 ∧
    chunkFile (linesN 5) samplePath "v1" "ab12cd34ef56" sampleRoot 10 2 =
      .ok ((chunkFile (linesN 5) samplePath "v1" "ab12cd34ef56" sampleRoot 10 2).toOption.getD []) ∧
    ((chunkFile (linesN 5) samplePath "v1" "ab12cd34ef56" sampleRoot 10 2).toOption.getD []).map
        (fun c => (c.start_line, c.end_line)) = [(1, ((linesN 5).length : Int))] :=
  ⟨by decide, by decide, by decide, by decide,
    chunk_short_file_amended (linesN 5) samplePath "v1" "ab12cd34ef56" sampleRoot 10 2
      _ (by decide) (by decide) (by decide) (by decide)⟩

/-- A concrete valid chunk used in the index-builder counterexamples. -/
def c6chunk : Chunk :=
  ⟨"aaaabbbbcccc", "v1", "deadbeef", "pkg/a.h", "cpp", 1, 1, "int x;",
   "source_impl", "1.0.0", none, false⟩

/-- A row-error environment in which the store rejects every row. -/
def rowErrAll : Chunk → Bool := fun _ => true

/-- **C6 (counterexample).** With one valid chunk and a store that rejects
every row (one row-level error, build otherwise completing), `build_fts_index`
reports `"partial"` — but `build_full_index` maps any non-`"success"` FTS
status to `"failed"`, so the full pipeline result is `"failed"`, not the
`"partial"` the claim states. -/
theorem index_status_partial_counterexample :
    buildFtsIndex true rowErrAll [c6chunk] = ("partial", 0) ∧
    buildFullIndexStatus [c6chunk] true true true rowErrAll true = "failed" ∧
    ("failed" : String) ≠ "partial" := by
  refine ⟨by decide, by decide, by decide⟩

/-- **C6 (amended).** The success/partial discipline holds at the
`build_fts_index` level: with table creation succeeding, the status is
`"success"` iff zero row errors occurred, and `"partial"` whenever at least
one row error occurred; a table-creation failure yields `("failed", 0)`.
`build_full_index`, however, never reports `"partial"`: it reports `"failed"`
whenever the FTS stage status is not `"success"` (and on any other stage
failure), and `"success"` otherwise. -/
theorem index_status_discipline_amended :
    (∀ (rowErr : Chunk → Bool) (chunks : List Chunk),
      (buildFtsIndex true rowErr chunks).1 = "success" ↔
        (insertStats rowErr chunks).2 = 0) ∧
    (∀ (rowErr : Chunk → Bool) (chunks : List Chunk),
      (insertStats rowErr chunks).2 ≠ 0 →
        (buildFtsIndex true rowErr chunks).1 = "partial") ∧
    (∀ (rowErr : Chunk → Bool) (chunks : List Chunk),
      buildFtsIndex false rowErr chunks = ("failed", 0)) ∧
    (∀ (chunks : List Chunk) (w f cOk m : Bool) (rowErr : Chunk → Bool),
      buildFullIndexStatus chunks w f cOk rowErr m ≠ "partial") := by
  refine ⟨?_, ?_, fun rowErr chunks => rfl, ?_⟩
  · intro rowErr chunks
    unfold buildFtsIndex
    rw [if_pos rfl]
    by_cases h : (insertStats rowErr chunks).2 = 0
    · rw [if_pos h]
      simp [h]
    · rw [if_neg h]
      show ("partial" : String) = "success" ↔ (insertStats rowErr chunks).2 = 0
      constructor
      · intro hs
        exact absurd hs (by decide)
      · intro hz
        exact absurd hz h
  · intro rowErr chunks h
    unfold buildFtsIndex
    rw [if_pos rfl, if_neg h]
  · intro chunks w f cOk m rowErr
    unfold buildFullIndexStatus
    split_ifs <;> decide

/-- Witness for **C6 (amended)**: at the all-rows-fail environment the FTS
stage is `"partial"`, by the amended discipline. -/
theorem index_status_discipline_witness :
    (insertStats rowErrAll [c6chunk]).2 ≠ 0 ∧
    (buildFtsIndex true rowErrAll [c6chunk]).1 = "partial" :=
  ⟨by decide, index_status_discipline_amended.2.1 rowErrAll [c6chunk] (by decide)⟩

/-- Two valid chunks that differ only in `content`, hence share the sort key
`(file_path, start_line, end_line, chunk_id)`. -/
def c7a : Chunk :=
  ⟨"aaaabbbbcccc", "v1", "deadbeef", "pkg/a.h", "cpp", 1, 1, "int x;",
   "source_impl", "1.0.0", none, false⟩

/-- Companion of `c7a` with different `content` but the same sort key. -/
def c7b : Chunk :=
  ⟨"aaaabbbbcccc", "v1", "deadbeef", "pkg/a.h", "cpp", 1, 1, "int y;",
   "source_impl", "1.0.0", none, false⟩

/-- **C7 (counterexample).** The stable sort cannot separate two distinct
chunks sharing the key `(file_path, start_line, end_line, chunk_id)`: the two
permutations `[c7a, c7b]` and `[c7b, c7a]` of the same chunk set produce
different inserted-row sequences.  Both chunks pass `Chunk` validation, so the
input lists are legal inputs of `insert_chunks_into_fts`. -/
theorem fts_insertion_order_counterexample :
    List.Perm [c7a, c7b] [c7b, c7a] ∧
    insertedRows [c7a, c7b] ≠ insertedRows [c7b, c7a] ∧
    mkChunk "aaaabbbbcccc" "v1" "deadbeef" "pkg/a.h" "cpp" 1 1 "int x;"
      "source_impl" none false = .ok c7a ∧
    mkChunk "aaaabbbbcccc" "v1" "deadbeef" "pkg/a.h" "cpp" 1 1 "int y;"
      "source_impl" none false = .ok c7b :=
  ⟨List.Perm.swap _ _ _, by decide, by decide, by decide⟩

/-- **C7 (amended).** `insert_chunks_into_fts` sorts its input by
`(file_path, start_line, end_line, chunk_id)` before inserting; whenever no
two distinct chunks of the input share that key (as holds for any chunk set
produced by a single corpus build), every two permutation-equal input lists
yield the identical sequence of inserted rows. -/
theorem fts_insertion_order_amended :
    (∀ chunks : List Chunk, insertedRows chunks = (sortChunks chunks).map rowOfChunk) ∧
    (∀ l1 l2 : List Chunk, l1.Perm l2 → (l1.map chunkKey).Nodup →
      insertedRows l1 = insertedRows l2) := by
  refine ⟨fun chunks => rfl, ?_⟩
  intro l1 l2 hp hnd
  unfold insertedRows
  rw [sortChunks_eq_of_perm l1 l2 hp hnd]

/-- Two valid chunks with distinct sort keys, for the C7 witness. -/
def c7c : Chunk :=
  ⟨"ddddeeeeffff", "v1", "deadbeef", "pkg/b.h", "cpp", 3, 4, "int z;",
   "source_impl", "1.0.0", none, false⟩

/-- Witness for **C7 (amended)**: on a two-chunk set with distinct keys, the
two insertion orders produce identical row sequences. -/
theorem fts_insertion_order_witness :
    List.Perm [c7a, c7c] [c7c, c7a] ∧
    ([c7a, c7c].map chunkKey).Nodup ∧
    insertedRows [c7a, c7c] = insertedRows [c7c, c7a] :=
  ⟨List.Perm.swap _ _ _, by decide,
    fts_insertion_order_amended.2 [c7a, c7c] [c7c, c7a] (List.Perm.swap _ _ _) (by decide)⟩

/-- **C8 (counterexample).** `validate_commit_sha` lowercases before testing
hex membership, so the 7-character uppercase-hex string `"ABCDEF1"` — which is
not a string of lowercase hex characters — is accepted: construction does not
succeed *only* on 7–40 lowercase hex characters. -/
theorem commit_validator_counterexample :
    validateCommitSha "ABCDEF1" = true ∧ specLowercaseHex "ABCDEF1" = false := by
  refine ⟨by decide, by decide⟩

/-- **C8 (amended).** `validate_commit_sha` accepts exactly the strings of 7
to 40 characters all of whose characters are hexadecimal digits ignoring case
(lowercase `0-9a-f` or uppercase `A-F`); in particular `"abc"` (3 characters)
is rejected, while uppercase hex such as `"ABCDEF1"` is accepted. -/
theorem commit_validator_amended :
    (∀ v : String, validateCommitSha v = true ↔
      (7 ≤ v.length ∧ v.length ≤ 40 ∧
        ∀ c ∈ v.data, c ∈ hexDigits ∨ c ∈ upperHexDigits)) ∧
    validateCommitSha "abc" = false ∧
    validateCommitSha "ABCDEF1" = true := by
  refine ⟨?_, by decide, by decide⟩
  intro v
  unfold validateCommitSha
  simp only [Bool.and_eq_true, decide_eq_true_eq, List.all_eq_true]
  constructor
  · rintro ⟨⟨h1, h2⟩, h3⟩
    refine ⟨h1, h2, fun c hc => ?_⟩
    exact (toLower_mem_hexDigits c).mp (h3 c hc)
  · rintro ⟨h1, h2, h3⟩
    refine ⟨⟨h1, h2⟩, fun c hc => ?_⟩
    exact (toLower_mem_hexDigits c).mpr (h3 c hc)

/-- Witness for **C8 (amended)**: the mixed-case 8-character hex string
`"Ab12Cd34"` is accepted by the validator. -/
theorem commit_validator_witness : validateCommitSha "Ab12Cd34" = true :=
  (commit_validator_amended.1 "Ab12Cd34").mpr (by decide)

/-- A small two-line fixture file. -/
def wLines : List String := ["int x;", "int y;"]

/-- The chunks of the two-line fixture with window 2, overlap 1. -/
def wChunks : List Chunk :=
  (chunkFile wLines samplePath "v1" "ab12cd34ef56" sampleRoot 2 1).toOption.getD []

/-- Witness for **C2** at the two-line fixture: the head chunk's id is the
digest of its own provenance tuple. -/
theorem chunk_id_deterministic_digest_witness :
    chunkFile wLines samplePath "v1" "ab12cd34ef56" sampleRoot 2 1 = .ok wChunks ∧
    (wChunks.getD 0 chunk0) ∈ wChunks ∧
    (wChunks.getD 0 chunk0).chunk_id =
      computeChunkId (wChunks.getD 0 chunk0).root_ref
        (wChunks.getD 0 chunk0).resolved_commit (wChunks.getD 0 chunk0).file_path
        (wChunks.getD 0 chunk0).start_line (wChunks.getD 0 chunk0).end_line :=
  ⟨by decide, by decide,
    chunk_id_deterministic_digest.2.2.1 wLines samplePath "v1" "ab12cd34ef56"
      sampleRoot 2 1 wChunks (by decide) (wChunks.getD 0 chunk0) (by decide)⟩

/-- Witness for **C3** at the two-line fixture: the head chunk's content is
the exact slice of the source lines. -/
theorem chunk_content_is_exact_slice_witness :
    chunkFile wLines samplePath "v1" "ab12cd34ef56" sampleRoot 2 1 = .ok wChunks ∧
    (wChunks.getD 0 chunk0) ∈ wChunks ∧
    (wChunks.getD 0 chunk0).content =
      String.intercalate "\n" (pySlice wLines ((wChunks.getD 0 chunk0).start_line - 1)
        (wChunks.getD 0 chunk0).end_line) :=
  ⟨by decide, by decide,
    chunk_content_is_exact_slice wLines samplePath "v1" "ab12cd34ef56" sampleRoot 2 1
      wChunks (by decide) (wChunks.getD 0 chunk0) (by decide)⟩

/-- Witness for **C4** at the two-line fixture: the head chunk's line range is
within bounds. -/
theorem chunk_range_invariant_witness :
    chunkFile wLines samplePath "v1" "ab12cd34ef56" sampleRoot 2 1 = .ok wChunks ∧
    (wChunks.getD 0 chunk0) ∈ wChunks ∧
    (1 ≤ (wChunks.getD 0 chunk0).start_line ∧
      (wChunks.getD 0 chunk0).start_line ≤ (wChunks.getD 0 chunk0).end_line ∧
      (wChunks.getD 0 chunk0).end_line ≤ (wLines.length : Int)) :=
  ⟨by decide, by decide,
    chunk_range_invariant wLines samplePath "v1" "ab12cd34ef56" sampleRoot 2 1
      wChunks (by decide) (wChunks.getD 0 chunk0) (by decide)⟩

/-- A relative path that is not inside the repository root below. -/
def w9path : PyPath := ⟨false, ["other", "b.h"]⟩

/-- A repository root that does not contain `w9path`. -/
def w9root : PyPath := ⟨false, ["repo"]⟩

/-- The chunks of the outside-the-root fixture. -/
def w9Chunks : List Chunk :=
  (chunkFile ["int x;"] w9path "v1" "ab12cd34ef56" w9root 1 0).toOption.getD []

/-- Witness for **C9**: a file outside the repository root keeps its own POSIX
path on every produced chunk. -/
theorem chunk_path_fallback_witness :
    PyPath.relativeTo w9path w9root = none ∧
    chunkFile ["int x;"] w9path "v1" "ab12cd34ef56" w9root 1 0 = .ok w9Chunks ∧
    (w9Chunks.getD 0 chunk0) ∈ w9Chunks ∧
    (w9Chunks.getD 0 chunk0).file_path = PyPath.asPosix w9path :=
  ⟨by decide, by decide, by decide,
    chunk_path_fallback ["int x;"] w9path "v1" "ab12cd34ef56" w9root 1 0 w9Chunks
      (by decide) (by decide) (w9Chunks.getD 0 chunk0) (by decide)⟩

/-- **C10.** If some window of a non-empty file has whitespace-only content,
`Chunk` validation rejects it with an error `chunk_file` does not catch, so
`chunk_file` reports an error instead of returning the file's other chunks;
`chunk_corpus` catches the exception, and the whole file contributes zero
chunks to the corpus — the other files' chunks are unaffected. -/
theorem whitespace_window_aborts_file (lines : List String) (path : PyPath)
    (rr rc : String) (root : PyPath) (wl ol : Int) (r : Int × Int)
    (hr : r ∈ windowRanges (lines.length : Int) wl (strideOf wl ol) lines.length 0)
    (hws : pyStripEmpty (String.intercalate "\n" (pySlice lines r.1 (r.2 + 1))) = true) :
    (∃ e, chunkFile lines path rr rc root wl ol = .error e) ∧
    ∀ fs1 fs2 : List SourceFile,
      chunkCorpus (fs1 ++ ⟨path, lines⟩ :: fs2) rr rc root wl ol =
        chunkCorpus (fs1 ++ fs2) rr rc root wl ol := by
  have hnil : lines ≠ [] := by
    intro h
    subst h
    simp [windowRanges] at hr
  have hbad : ∀ c, windowChunk lines (resolvedPosix path root)
      (getLanguageFromPath path) (getDocOriginFromPath path) rr rc r ≠ .ok c := by
    intro c hok
    rcases windowChunk_ok _ _ _ _ _ _ _ _ hok with ⟨-, hvc, -⟩
    simp [validContent, hws] at hvc
  rcases chunkFileLoop_error lines (resolvedPosix path root) (getLanguageFromPath path)
      (getDocOriginFromPath path) rr rc wl (strideOf wl ol) lines.length 0 r hr hbad
    with ⟨e, he⟩
  have hcf : chunkFile lines path rr rc root wl ol = .error e := by
    rw [chunkFile_of_ne_nil lines path rr rc root wl ol hnil, he]
  refine ⟨⟨e, hcf⟩, ?_⟩
  intro fs1 fs2
  exact chunkCorpus_skip fs1 fs2 ⟨path, lines⟩ rr rc root wl ol e hcf

/-- A fixture file whose second one-line window is whitespace-only. -/
def badFile : SourceFile := ⟨samplePath, ["int x;", "   "]⟩

/-- A well-formed fixture file. -/
def goodFile : SourceFile := ⟨⟨true, ["repo", "pkg", "g.h"]⟩, ["int g;"]⟩

/-- Witness for **C10**: with window 1, overlap 0, the file `badFile` errors
on its whitespace-only second window and contributes nothing to the corpus. -/
theorem whitespace_window_aborts_file_witness :
    ((1 : Int), (1 : Int)) ∈ windowRanges ((badFile.lines.length : Nat) : Int) 1
      (strideOf 1 0) badFile.lines.length 0 ∧
    pyStripEmpty (String.intercalate "\n" (pySlice badFile.lines 1 2)) = true ∧
    chunkFile badFile.lines samplePath "v1" "ab12cd34ef56" sampleRoot 1 0 =
      .error "content" ∧
    chunkCorpus ([goodFile] ++ badFile :: []) "v1" "ab12cd34ef56" sampleRoot 1 0 =
      chunkCorpus ([goodFile] ++ []) "v1" "ab12cd34ef56" sampleRoot 1 0 :=
  ⟨by decide, by decide, by decide,
    (whitespace_window_aborts_file badFile.lines samplePath "v1" "ab12cd34ef56"
      sampleRoot 1 0 (1, 1) (by decide) (by decide)).2 [goodFile] []⟩

end RootRag
